import Mathlib

/-!
# Verification of zillians/supercell_common (connection engine and utility collaborators)

Shallow embedding of the repository's core components:

* `TcpConnector` (src/include/net-api/rdma/old/tcp/TcpConnector.h): the
  connect/cancel state machine.  Only the class declaration is present in the
  repository sources; the member-function bodies are modelled from the spec
  (§4.2 of spec.md), as marked on each definition.
* `TcpConnector.create` (inline in the header): factory storing a weak
  self-reference, modelled over an explicit heap of objects with strong
  reference counts.
* `ContextHub` (src/include/core-api/ContextHub.h): per-type single-slot
  store over a growable vector of shared pointers.
* shared-pointer comparison helpers (src/include/core-api/SharedPtr.h,
  `operator==` / `operator!=` between `shared_ptr<T>` and `const T*`).
* `utf8_to_ucs4` (src/src/utility/UnicodeUtil.cpp): UTF-8 to UCS-4
  conversion via `boost::u8_to_u32_iterator` and `std::copy` with a
  `back_inserter`.
-/

namespace Zillians

/-! ## TcpConnector state machine -/

/-- The enum `TcpConnector::Status` from TcpConnector.h lines 69–77. -/
inductive Status where
  | IDLE
  | CONNECTING
  | CONNECTED
  | CANCELING
  | CANCELED
  | ERROR
  deriving DecidableEq, Repr

/-- Status codes of the layer, from spec.md §6: `Ok, TimedOut, Refused,
AlreadyInProgress, InvalidHandle, TransportError`. -/
inductive StatusCode where
  | Ok
  | TimedOut
  | Refused
  | AlreadyInProgress
  | InvalidHandle
  | TransportError
  deriving DecidableEq, Repr

/-- One invocation of the `ConnectorCallback`
(`boost::function2<void, SharedPtr<TcpConnection>, int>`): the connection
argument (`none` models a null shared pointer) and the status code. -/
structure CallbackCall where
  conn : Option Nat
  code : StatusCode
  deriving DecidableEq, Repr

/-- Observable state of one `TcpConnector`: `mStatus`, whether the
`ev::io` readiness watcher (`mConnectInfo.watcher`) and the `ev::timer`
(`mConnectInfo.timeout`) are armed, the list of callback invocations made so
far (oldest first), and a ghost flag recording that a `cancel()` call was
accepted (took effect from `CONNECTING`). -/
structure ConnectorState where
  mStatus : Status
  watcherArmed : Bool
  timeoutArmed : Bool
  calls : List CallbackCall
  cancelAccepted : Bool
  deriving DecidableEq, Repr

/-- A freshly constructed `TcpConnector`: status `IDLE`, nothing armed,
no callbacks made. -/
def initConnector : ConnectorState :=
  { mStatus := .IDLE, watcherArmed := false, timeoutArmed := false,
    calls := [], cancelAccepted := false }

/-- Terminal states per spec.md §4.2: `{CONNECTED, CANCELED, ERROR}`. -/
def terminal (st : Status) : Bool :=
  st = .CONNECTED || st = .CANCELED || st = .ERROR

/-- Modelled from the spec: body of `TcpConnector::connect` (declared at
TcpConnector.h line 55, definition not in the sources).  Spec §4.2: valid
only from `IDLE`; arms an I/O-readiness watcher plus a timeout watcher and
transitions to `CONNECTING`; fails immediately with `AlreadyInProgress` if
not `IDLE`, leaving the state unchanged. -/
def connect (s : ConnectorState) : ConnectorState × StatusCode :=
  if s.mStatus = .IDLE then
    ({ s with mStatus := .CONNECTING, watcherArmed := true, timeoutArmed := true },
     .Ok)
  else
    (s, .AlreadyInProgress)

/-- Modelled from the spec: first half of `TcpConnector::cancel`
(spec §4.2): transition `CONNECTING → CANCELING`. -/
def cancelBegin (s : ConnectorState) : ConnectorState :=
  { s with mStatus := .CANCELING }

/-- Modelled from the spec: second half of `TcpConnector::cancel`
(spec §4.2): disarm both watchers and transition to `CANCELED`; no callback
is invoked.  The ghost flag `cancelAccepted` records acceptance. -/
def cancelFinish (s : ConnectorState) : ConnectorState :=
  { s with mStatus := .CANCELED, watcherArmed := false, timeoutArmed := false,
           cancelAccepted := true }

/-- Modelled from the spec: body of `TcpConnector::cancel` (declared at
TcpConnector.h line 56).  Spec §4.2: valid from `CONNECTING`; transitions
through `CANCELING` to `CANCELED`, disarming both watchers, without invoking
the callback; from any other state it is a no-op. -/
def cancel (s : ConnectorState) : ConnectorState :=
  if s.mStatus = .CONNECTING then cancelFinish (cancelBegin s) else s

/-- Modelled from the spec: body of `TcpConnector::cleanup` (declared at
TcpConnector.h line 66).  Spec §4.2: releases both watcher registrations
from the Poller. -/
def cleanup (s : ConnectorState) : ConnectorState :=
  { s with watcherArmed := false, timeoutArmed := false }

/-- Modelled from the spec: body of `TcpConnector::handleChannelEvent`
(declared at TcpConnector.h line 59).  Spec §4.2: the handler checks for an
already-terminal status (acts only while `CONNECTING`); it probes the handle
for connect completion (`probeOk`, with `connId` the resulting connection
on success and `errCode` the error on failure): success builds the
Connection, transitions to `CONNECTED`, invokes `callback(connection, Ok)`
and runs `cleanup()`; failure transitions to `ERROR`, invokes
`callback(null, errCode)` and runs `cleanup()`. -/
def handleChannelEvent (probeOk : Bool) (connId : Nat) (errCode : StatusCode)
    (s : ConnectorState) : ConnectorState :=
  if s.mStatus = .CONNECTING then
    if probeOk then
      cleanup { s with mStatus := .CONNECTED,
                       calls := s.calls ++ [⟨some connId, .Ok⟩] }
    else
      cleanup { s with mStatus := .ERROR,
                       calls := s.calls ++ [⟨none, errCode⟩] }
  else s

/-- Modelled from the spec: body of `TcpConnector::handleTimeoutEvent`
(declared at TcpConnector.h line 60).  Spec §4.2: acts only while
`CONNECTING` (already-terminal check); transitions to `ERROR`, invokes
`callback(null, TimedOut)` and runs `cleanup()`. -/
def handleTimeoutEvent (s : ConnectorState) : ConnectorState :=
  if s.mStatus = .CONNECTING then
    cleanup { s with mStatus := .ERROR,
                     calls := s.calls ++ [⟨none, .TimedOut⟩] }
  else s

/-- An operation applied to a `TcpConnector` during its lifetime. -/
inductive Op where
  | connect
  | cancel
  | channelEvent (probeOk : Bool) (connId : Nat) (errCode : StatusCode)
  | timeoutEvent
  deriving DecidableEq, Repr

/-- One lifecycle step (the result code of `connect` is not part of the
connector's own state). -/
def step (s : ConnectorState) (op : Op) : ConnectorState :=
  match op with
  | .connect => (connect s).1
  | .cancel => cancel s
  | .channelEvent probeOk connId errCode => handleChannelEvent probeOk connId errCode s
  | .timeoutEvent => handleTimeoutEvent s

/-- An execution: the state after applying a list of operations to a fresh
connector. -/
def run (ops : List Op) : ConnectorState :=
  ops.foldl step initConnector

/-- Lifetime invariant of the connector machine. -/
def ConnectorInv (s : ConnectorState) : Prop :=
  s.calls.length ≤ 1
  ∧ ((s.mStatus = .IDLE ∨ s.mStatus = .CONNECTING ∨ s.mStatus = .CANCELING
      ∨ s.mStatus = .CANCELED) → s.calls = [])
  ∧ (s.cancelAccepted = true → s.mStatus = .CANCELED)

theorem connectorInv_init : ConnectorInv initConnector := by
  refine ⟨by simp [initConnector], fun _ => rfl, fun h => by simp [initConnector] at h⟩

theorem cancelAccepted_false_of_nonterminal (s : ConnectorState)
    (h3 : s.cancelAccepted = true → s.mStatus = .CANCELED)
    (hs : s.mStatus ≠ .CANCELED) : s.cancelAccepted = false := by
  cases hxx : s.cancelAccepted
  · rfl
  · exact absurd (h3 hxx) hs

theorem connectorInv_step (s : ConnectorState) (op : Op) (h : ConnectorInv s) :
    ConnectorInv (step s op) := by
  obtain ⟨h1, h2, h3⟩ := h
  cases op with
  | connect =>
    simp only [step, connect]
    by_cases hs : s.mStatus = .IDLE
    · have hc : s.calls = [] := h2 (Or.inl hs)
      have hca : s.cancelAccepted = false :=
        cancelAccepted_false_of_nonterminal s h3 (by rw [hs]; intro hx; exact Status.noConfusion hx)
      simp [hs, ConnectorInv, hc, hca]
    · rw [if_neg hs]
      exact ⟨h1, h2, h3⟩
  | cancel =>
    simp only [step, cancel]
    by_cases hs : s.mStatus = .CONNECTING
    · have hc : s.calls = [] := h2 (Or.inr (Or.inl hs))
      simp [hs, cancelFinish, cancelBegin, ConnectorInv, hc]
    · rw [if_neg hs]
      exact ⟨h1, h2, h3⟩
  | channelEvent probeOk connId errCode =>
    simp only [step, handleChannelEvent]
    by_cases hs : s.mStatus = .CONNECTING
    · have hc : s.calls = [] := h2 (Or.inr (Or.inl hs))
      have hca : s.cancelAccepted = false :=
        cancelAccepted_false_of_nonterminal s h3 (by rw [hs]; intro hx; exact Status.noConfusion hx)
      cases probeOk <;> simp [hs, cleanup, ConnectorInv, hc, hca]
    · rw [if_neg hs]
      exact ⟨h1, h2, h3⟩
  | timeoutEvent =>
    simp only [step, handleTimeoutEvent]
    by_cases hs : s.mStatus = .CONNECTING
    · have hc : s.calls = [] := h2 (Or.inr (Or.inl hs))
      have hca : s.cancelAccepted = false :=
        cancelAccepted_false_of_nonterminal s h3 (by rw [hs]; intro hx; exact Status.noConfusion hx)
      simp [hs, cleanup, ConnectorInv, hc, hca]
    · rw [if_neg hs]
      exact ⟨h1, h2, h3⟩

theorem connectorInv_run (ops : List Op) : ConnectorInv (run ops) := by
  suffices h : ∀ s, ConnectorInv s → ConnectorInv (ops.foldl step s) by
    exact h initConnector connectorInv_init
  induction ops with
  | nil => intro s hs; exact hs
  | cons op rest ih =>
    intro s hs
    exact ih (step s op) (connectorInv_step s op hs)

theorem cancelAccepted_step_mono (s : ConnectorState) (op : Op)
    (h : s.cancelAccepted = true) : (step s op).cancelAccepted = true := by
  cases op with
  | connect =>
    simp only [step, connect]
    split <;> simp [h]
  | cancel =>
    simp only [step, cancel]
    split <;> simp [cancelFinish, cancelBegin, h]
  | channelEvent probeOk connId errCode =>
    simp only [step, handleChannelEvent]
    split
    · split <;> simp [cleanup, h]
    · exact h
  | timeoutEvent =>
    simp only [step, handleTimeoutEvent]
    split <;> simp [cleanup, h]

theorem cancelAccepted_foldl_mono (l : List Op) :
    ∀ s : ConnectorState, s.cancelAccepted = true →
      (List.foldl step s l).cancelAccepted = true := by
  induction l with
  | nil => intro s h; exact h
  | cons op rest ih =>
    intro s h
    exact ih (step s op) (cancelAccepted_step_mono s op h)

theorem terminal_step_fix (s : ConnectorState) (op : Op)
    (h : terminal s.mStatus = true) : step s op = s := by
  have hidle : s.mStatus ≠ .IDLE := by
    intro hx; rw [hx] at h; simp [terminal] at h
  have hconn : s.mStatus ≠ .CONNECTING := by
    intro hx; rw [hx] at h; simp [terminal] at h
  cases op with
  | connect => simp [step, connect, hidle]
  | cancel => simp [step, cancel, hconn]
  | channelEvent probeOk connId errCode => simp [step, handleChannelEvent, hconn]
  | timeoutEvent => simp [step, handleTimeoutEvent, hconn]

theorem terminal_foldl_fix (l : List Op) :
    ∀ s : ConnectorState, terminal s.mStatus = true → List.foldl step s l = s := by
  induction l with
  | nil => intro s _; rfl
  | cons op rest ih =>
    intro s h
    rw [List.foldl_cons, terminal_step_fix s op h, ih s h]

/-! ## Claim theorems for the Connector -/

/-- C1: over every execution of a `TcpConnector` (any operation sequence from
the fresh state), the user-supplied callback `mConnectorCallback` is invoked
at most once; and once a `cancel()` has been accepted (took effect from
`CONNECTING`), no later `handleChannelEvent` or `handleTimeoutEvent` fires
the callback — the call list stays empty forever after. -/
theorem tcpConnector_callback_at_most_once_never_after_cancel
    (ops₁ ops₂ : List Op) :
    (run (ops₁ ++ ops₂)).calls.length ≤ 1
    ∧ ((run ops₁).cancelAccepted = true → (run (ops₁ ++ ops₂)).calls = []) := by
  constructor
  · exact (connectorInv_run (ops₁ ++ ops₂)).1
  · intro hacc
    have hmono : (run (ops₁ ++ ops₂)).cancelAccepted = true := by
      have : run (ops₁ ++ ops₂) = List.foldl step (run ops₁) ops₂ := by
        simp [run, List.foldl_append]
      rw [this]
      exact cancelAccepted_foldl_mono ops₂ (run ops₁) hacc
    have hinv := connectorInv_run (ops₁ ++ ops₂)
    have hst := hinv.2.2 hmono
    exact hinv.2.1 (Or.inr (Or.inr (Or.inr hst)))

theorem tcpConnector_callback_at_most_once_never_after_cancel_witness :
    ((run [Op.connect, Op.cancel]).cancelAccepted = true)
    ∧ (run ([Op.connect, Op.cancel]
        ++ [Op.timeoutEvent, Op.channelEvent true 0 StatusCode.Refused])).calls = [] := by
  refine ⟨by decide, ?_⟩
  exact (tcpConnector_callback_at_most_once_never_after_cancel
    [Op.connect, Op.cancel]
    [Op.timeoutEvent, Op.channelEvent true 0 StatusCode.Refused]).2 (by decide)

/-- C2: from `CONNECTING` with both events pending, whichever handler runs
first drives the connector to a terminal state and disarms both watchers;
the other handler, run second, is then a no-op (the already-terminal check
discards it), so no double callback occurs.  When the timeout fires first,
exactly one `TimedOut` callback is appended; in particular the canonical
connect-then-timeout-then-late-readiness execution produces exactly one
callback, `(null, TimedOut)`. -/
theorem tcpConnector_race_first_event_wins (s : ConnectorState)
    (probeOk : Bool) (connId : Nat) (errCode : StatusCode)
    (hs : s.mStatus = .CONNECTING) :
    (terminal (handleTimeoutEvent s).mStatus = true
     ∧ (handleTimeoutEvent s).watcherArmed = false
     ∧ (handleTimeoutEvent s).timeoutArmed = false
     ∧ handleChannelEvent probeOk connId errCode (handleTimeoutEvent s)
         = handleTimeoutEvent s
     ∧ (handleTimeoutEvent s).calls
         = s.calls ++ [⟨none, StatusCode.TimedOut⟩])
    ∧ (terminal (handleChannelEvent probeOk connId errCode s).mStatus = true
     ∧ (handleChannelEvent probeOk connId errCode s).watcherArmed = false
     ∧ (handleChannelEvent probeOk connId errCode s).timeoutArmed = false
     ∧ handleTimeoutEvent (handleChannelEvent probeOk connId errCode s)
         = handleChannelEvent probeOk connId errCode s)
    ∧ (run [Op.connect, Op.timeoutEvent, Op.channelEvent probeOk connId errCode]).calls
         = [⟨none, StatusCode.TimedOut⟩] := by
  refine ⟨?_, ?_, ?_⟩
  · simp [handleTimeoutEvent, handleChannelEvent, cleanup, terminal, hs]
  · cases probeOk <;>
      simp [handleChannelEvent, handleTimeoutEvent, cleanup, terminal, hs]
  · cases probeOk <;>
      simp [run, step, connect, handleTimeoutEvent, handleChannelEvent,
            cleanup, initConnector]

theorem tcpConnector_race_first_event_wins_witness :
    ConnectorState.mStatus
        ⟨.CONNECTING, true, true, [], false⟩ = .CONNECTING
    ∧ handleChannelEvent true 7 StatusCode.Refused
        (handleTimeoutEvent ⟨.CONNECTING, true, true, [], false⟩)
      = handleTimeoutEvent ⟨.CONNECTING, true, true, [], false⟩ := by
  refine ⟨rfl, ?_⟩
  exact (tcpConnector_race_first_event_wins
    ⟨.CONNECTING, true, true, [], false⟩ true 7 StatusCode.Refused rfl).1.2.2.2.1

/-- C3: every `TcpConnector` starts in `IDLE`; its status at every point of
every execution is one of the six declared states; and once it reaches a
terminal state (`CONNECTED`, `CANCELED` or `ERROR`), no operation
(`connect`, `cancel`, `handleChannelEvent`, `handleTimeoutEvent`) changes
the state again — both per step and over whole executions. -/
theorem tcpConnector_terminal_states_absorbing :
    initConnector.mStatus = .IDLE
    ∧ (∀ ops : List Op,
        (run ops).mStatus = .IDLE ∨ (run ops).mStatus = .CONNECTING
        ∨ (run ops).mStatus = .CONNECTED ∨ (run ops).mStatus = .CANCELING
        ∨ (run ops).mStatus = .CANCELED ∨ (run ops).mStatus = .ERROR)
    ∧ (∀ (s : ConnectorState) (op : Op),
        terminal s.mStatus = true → step s op = s)
    ∧ (∀ ops more : List Op,
        terminal (run ops).mStatus = true → run (ops ++ more) = run ops) := by
  refine ⟨rfl, ?_, terminal_step_fix, ?_⟩
  · intro ops
    cases h : (run ops).mStatus <;> simp
  · intro ops more h
    have : run (ops ++ more) = List.foldl step (run ops) more := by
      simp [run, List.foldl_append]
    rw [this]
    exact terminal_foldl_fix more (run ops) h

theorem tcpConnector_terminal_states_absorbing_witness :
    terminal (ConnectorState.mStatus ⟨.CONNECTED, false, false, [⟨some 1, StatusCode.Ok⟩], false⟩) = true
    ∧ step ⟨.CONNECTED, false, false, [⟨some 1, StatusCode.Ok⟩], false⟩ Op.cancel
        = ⟨.CONNECTED, false, false, [⟨some 1, StatusCode.Ok⟩], false⟩ := by
  refine ⟨by decide, ?_⟩
  exact tcpConnector_terminal_states_absorbing.2.2.1
    ⟨.CONNECTED, false, false, [⟨some 1, StatusCode.Ok⟩], false⟩ Op.cancel (by decide)

/-- C4: `connect` succeeds only from `IDLE`, in which case it arms the
readiness watcher and the timeout watcher and moves the status to
`CONNECTING`; from any other state it fails synchronously with
`AlreadyInProgress` and leaves the connector entirely unchanged. -/
theorem tcpConnector_connect_only_from_idle (s : ConnectorState) :
    (s.mStatus = .IDLE →
      connect s = ({ s with mStatus := .CONNECTING,
                            watcherArmed := true, timeoutArmed := true },
                   StatusCode.Ok))
    ∧ (s.mStatus ≠ .IDLE → connect s = (s, StatusCode.AlreadyInProgress)) := by
  constructor
  · intro h; simp [connect, h]
  · intro h; simp [connect, h]

theorem tcpConnector_connect_only_from_idle_witness :
    connect initConnector
      = ({ mStatus := .CONNECTING, watcherArmed := true, timeoutArmed := true,
           calls := [], cancelAccepted := false }, StatusCode.Ok)
    ∧ connect ⟨.CONNECTED, false, false, [], false⟩
      = (⟨.CONNECTED, false, false, [], false⟩, StatusCode.AlreadyInProgress) := by
  constructor
  · exact (tcpConnector_connect_only_from_idle initConnector).1 rfl
  · exact (tcpConnector_connect_only_from_idle
      ⟨.CONNECTED, false, false, [], false⟩).2 (by decide)

/-- C5: `cancel` from `CONNECTING` passes through `CANCELING` to `CANCELED`,
disarms both watchers and invokes no callback; from any other state it is a
no-op leaving the state unchanged; and `cancel` is idempotent. -/
theorem tcpConnector_cancel_silent_idempotent (s : ConnectorState) :
    (s.mStatus = .CONNECTING →
      cancel s = cancelFinish (cancelBegin s)
      ∧ (cancelBegin s).mStatus = .CANCELING
      ∧ (cancel s).mStatus = .CANCELED
      ∧ (cancel s).watcherArmed = false
      ∧ (cancel s).timeoutArmed = false
      ∧ (cancel s).calls = s.calls)
    ∧ (s.mStatus ≠ .CONNECTING → cancel s = s)
    ∧ cancel (cancel s) = cancel s := by
  refine ⟨?_, ?_, ?_⟩
  · intro h
    simp [cancel, cancelFinish, cancelBegin, h]
  · intro h
    simp [cancel, h]
  · by_cases h : s.mStatus = .CONNECTING
    · simp [cancel, cancelFinish, cancelBegin, h]
    · simp [cancel, h]

theorem tcpConnector_cancel_silent_idempotent_witness :
    (cancel ⟨.CONNECTING, true, true, [], false⟩).mStatus = .CANCELED
    ∧ (cancel ⟨.CONNECTING, true, true, [], false⟩).calls = []
    ∧ cancel initConnector = initConnector := by
  refine ⟨?_, ?_, ?_⟩
  · exact ((tcpConnector_cancel_silent_idempotent
      ⟨.CONNECTING, true, true, [], false⟩).1 rfl).2.2.1
  · exact ((tcpConnector_cancel_silent_idempotent
      ⟨.CONNECTING, true, true, [], false⟩).1 rfl).2.2.2.2.2
  · exact (tcpConnector_cancel_silent_idempotent initConnector).2.1 (by decide)

/-! ## TcpConnector::create and the weak self-reference -/

/-- A `TcpConnector` object on the heap: the `mEngine` back-pointer (an
address), the `mWeakThis` weak self-reference (`WeakPtr<TcpConnector>`,
modelled as the id of the referenced object, `none` when empty), and the
number of owning `SharedPtr` references to the object (weak references are
not counted). -/
structure ConnObj where
  mEngine : Nat
  mWeakThis : Option Nat
  strongCount : Nat
  deriving DecidableEq, Repr

/-- Heap of allocated `TcpConnector` objects, addressed by position. -/
structure Heap where
  objs : List ConnObj
  deriving DecidableEq, Repr

/-- A `SharedPtr<TcpConnector>`: an owning handle designating the object
with the given id. -/
structure SharedRef where
  id : Nat
  deriving DecidableEq, Repr

/-- The factory `TcpConnector::create` from TcpConnector.h lines 46–52 over the explicit
heap model: `new TcpConnector(engine)` allocates a fresh object whose
constructor records the engine and leaves `mWeakThis` empty; wrapping the
raw pointer in `SharedPtr<TcpConnector> p(...)` gives the object strong
count 1; `p->mWeakThis = p` stores a weak reference to that same object,
which does not change the strong count; the shared handle `p` is
returned. -/
def create (h : Heap) (e : Nat) : Heap × SharedRef :=
  let n := h.objs.length
  let obj : ConnObj := { mEngine := e, mWeakThis := none, strongCount := 1 }
  let obj2 : ConnObj := { obj with mWeakThis := some n }
  ({ objs := h.objs ++ [obj2] }, { id := n })

/-- C6: `create(e)` returns a shared handle to a newly constructed object
(its id is fresh — beyond every id of the pre-existing heap), and before
returning it stores in that object's `mWeakThis` field a weak reference to
the very same id the returned handle designates; the object's engine
pointer is `e` and its strong count is 1, so the stored weak self-reference
contributes no ownership — only the returned shared handle keeps the object
alive. -/
theorem tcpConnector_create_weak_self_reference (h : Heap) (e : Nat) :
    (create h e).2.id = h.objs.length
    ∧ ((create h e).1.objs[(create h e).2.id]?
        = some { mEngine := e, mWeakThis := some (create h e).2.id,
                 strongCount := 1 }) := by
  refine ⟨rfl, ?_⟩
  simp [create]

/-! ## TcpNetEngine / TcpCompletionHandler as pure template instantiations -/

/-- Modelled from the spec: the transport-specific primitives that
distinguish TCP from RDMA — "Two transports differ only in how a
Connection's read/write primitives and the Acceptor's handshake are
implemented" (spec §4.5).  Each primitive is an opaque function on
handles. -/
structure Transport where
  readPrim : Nat → Nat
  writePrim : Nat → Nat
  handshakePrim : Nat → Nat

/-- A NetEngine instance: the transport it was instantiated with, and its
observable behaviour — the callback trace produced on a scenario of reactor
events. -/
structure NetEngineT where
  transport : Transport
  traceOf : List Op → List CallbackCall

/-- Modelled from the spec: `NetEngineTemplate<Connection, Connector,
Acceptor, Dispatcher>` (net-api/sys/NetEngineTemplate.h, not among the
sources), spec §4.5: the generic composition root; the state machines,
cancellation-safety pattern and composition contract are shared, so the
callback sequence and status codes on a scenario are computed by the
transport-independent Connector machine. -/
def NetEngineTemplate (t : Transport) : NetEngineT :=
  { transport := t, traceOf := fun scenario => (run scenario).calls }

/-- Modelled from the spec: the TCP transport's concrete primitives. -/
def tcpTransport : Transport :=
  { readPrim := fun n => n + 1, writePrim := fun n => n + 1,
    handshakePrim := fun n => n + 1 }

/-- Modelled from the spec: the RDMA transport's concrete primitives
(different implementations from TCP, spec §4.5). -/
def rdmaTransport : Transport :=
  { readPrim := fun n => n * 2, writePrim := fun n => n * 2,
    handshakePrim := fun n => n * 2 }

/-- The declaration `class TcpNetEngine : public NetEngineTemplate<TcpConnection,
TcpConnector, TcpAcceptor, TcpDispatcher> { }` (TcpNetEngine.h lines
68–69): an empty class body — the bare instantiation of the template at the
TCP transport, with no added members or overrides. -/
def TcpNetEngine : NetEngineT := NetEngineTemplate tcpTransport

/-- Modelled from the spec: the RDMA-backed engine, the instantiation of the
same template at the RDMA transport. -/
def RdmaNetEngine : NetEngineT := NetEngineTemplate rdmaTransport

/-- A TCP connection handle (net-api/sys/tcp/TcpConnection.h, consumed here
only as an opaque type parameter). -/
structure TcpConnection where
  handle : Nat
  deriving DecidableEq, Repr

/-- Modelled from the spec: `CompletionHandlerTemplate<ConnectionT>`
(net-api/sys/CompletionHandlerTemplate.h, not among the sources), spec §4.4:
transport-specific completion logic parameterized by the Connection type;
it maps a connection and a readiness notification to bytes transferred or
an error. -/
def CompletionHandlerTemplate (ConnectionT : Type) : Type :=
  ConnectionT → Nat → Option Nat

/-- The declaration `class TcpCompletionHandler : public
CompletionHandlerTemplate<TcpConnection> { }` (TcpCompletionHandler.h lines
32–33): an empty body — the bare instantiation at `TcpConnection`. -/
def TcpCompletionHandler : Type := CompletionHandlerTemplate TcpConnection

/-- C7: `TcpNetEngine` is exactly the generic skeleton instantiated at the
TCP transport (no members or overrides added), `TcpCompletionHandler` is
exactly `CompletionHandlerTemplate` instantiated at `TcpConnection`, and
therefore the TCP-backed and RDMA-backed engines produce identical callback
sequences and status codes on every scenario. -/
theorem tcpNetEngine_pure_template_instantiation :
    TcpNetEngine = NetEngineTemplate tcpTransport
    ∧ TcpCompletionHandler = CompletionHandlerTemplate TcpConnection
    ∧ ∀ scenario : List Op,
        TcpNetEngine.traceOf scenario = RdmaNetEngine.traceOf scenario :=
  ⟨rfl, rfl, fun _ => rfl⟩

/-! ## ContextHub: per-type single-slot store (core-api/ContextHub.h) -/

namespace ContextHub

/-- One entry of `mContextObjects`: the raw pointer held by the
`boost::shared_ptr<void>` in that slot (`none` models the empty shared
pointer, whose `.get()` is the null pointer). -/
abbrev Slot := Option Nat

/-- The vector `mContextObjects`, a `std::vector< boost::shared_ptr<void> >`
(ContextHub.h line 119).  Each distinct context type `T` is assigned a
distinct index by the static `msContextIndexer` (atomic fetch-and-increment
on first use of `refContext<T>`, line 106); indices stand in for types. -/
abbrev HubState := List Slot

/-- A default-constructed `ContextHub()`: the vector is empty. -/
def emptyHub : HubState := []

/-- The growth loop of `refContext<T>` (ContextHub.h lines 107–113): while
the type's index is not below the vector's size, push back an empty shared
pointer. -/
def ensureSlot (s : HubState) (i : Nat) : HubState :=
  s ++ List.replicate (i + 1 - s.length) none

/-- Method `ContextHub::set<T>(ctx)` (lines 66–70): `refContext<T>() =
boost::shared_ptr<T>(ctx)` — grow if needed, then overwrite slot `i` with
the new pointer. -/
def set (s : HubState) (i : Nat) (p : Nat) : HubState :=
  (ensureSlot s i).set i (some p)

/-- Method `ContextHub::get<T>()` (lines 77–81): read `refContext<T>()` (growing if
needed) and return its raw pointer, null when the slot is empty. -/
def get (s : HubState) (i : Nat) : Slot :=
  (ensureSlot s i).getD i none

/-- Method `ContextHub::reset<T>()` (lines 90–94): `refContext<T>().reset()` — the
slot becomes the empty shared pointer. -/
def reset (s : HubState) (i : Nat) : HubState :=
  (ensureSlot s i).set i none

theorem length_ensureSlot (s : HubState) (i : Nat) :
    (ensureSlot s i).length = max s.length (i + 1) := by
  simp [ensureSlot]
  omega

theorem lt_length_ensureSlot (s : HubState) (i : Nat) :
    i < (ensureSlot s i).length := by
  rw [length_ensureSlot]
  omega

theorem getD_ensureSlot (s : HubState) (i j : Nat) :
    (ensureSlot s i).getD j none = s.getD j none := by
  simp only [ensureSlot, List.getD_eq_getElem?_getD, List.getElem?_append,
             List.getElem?_replicate]
  by_cases hj : j < s.length
  · simp [hj]
  · simp only [hj, if_false]
    rw [List.getElem?_eq_none (Nat.le_of_not_lt hj)]
    split <;> rfl

theorem get_eq_getD (s : HubState) (i : Nat) : get s i = s.getD i none :=
  getD_ensureSlot s i i

end ContextHub

/-- C8: `ContextHub` is a per-type single-slot store with independent slots:
`get<T>` on a fresh hub is null; after `set<T>(p)`, `get<T>` returns exactly
`p`; after `reset<T>()`, `get<T>` is null again; and for a distinct type
(distinct index `j ≠ i`, as assigned by the static per-type indexer),
`set<T>` and `reset<T>` leave `get<U>` unchanged. -/
theorem contextHub_per_type_single_slot (s : ContextHub.HubState)
    (i j : Nat) (p : Nat) (hij : i ≠ j) :
    ContextHub.get ContextHub.emptyHub i = none
    ∧ ContextHub.get (ContextHub.set s i p) i = some p
    ∧ ContextHub.get (ContextHub.reset s i) i = none
    ∧ ContextHub.get (ContextHub.set s i p) j = ContextHub.get s j
    ∧ ContextHub.get (ContextHub.reset s i) j = ContextHub.get s j := by
  have hlen := ContextHub.lt_length_ensureSlot s i
  refine ⟨?_, ?_, ?_, ?_, ?_⟩
  · rw [ContextHub.get_eq_getD]
    simp [ContextHub.emptyHub]
  · rw [ContextHub.get_eq_getD, ContextHub.set,
        List.getD_eq_getElem?_getD, List.getElem?_set_self]
    · rfl
    · simpa using hlen
  · rw [ContextHub.get_eq_getD, ContextHub.reset,
        List.getD_eq_getElem?_getD, List.getElem?_set_self]
    · rfl
    · simpa using hlen
  · rw [ContextHub.get_eq_getD, ContextHub.set, List.getD_eq_getElem?_getD,
        List.getElem?_set_ne hij]
    rw [← List.getD_eq_getElem?_getD, ContextHub.getD_ensureSlot,
        ← ContextHub.get_eq_getD]
  · rw [ContextHub.get_eq_getD, ContextHub.reset, List.getD_eq_getElem?_getD,
        List.getElem?_set_ne hij]
    rw [← List.getD_eq_getElem?_getD, ContextHub.getD_ensureSlot,
        ← ContextHub.get_eq_getD]

theorem contextHub_per_type_single_slot_witness :
    ContextHub.get (ContextHub.set [some 9] 0 5) 1 = ContextHub.get [some 9] 1
    ∧ ContextHub.get (ContextHub.set [some 9] 0 5) 0 = some 5 := by
  have h := contextHub_per_type_single_slot [some 9] 0 1 5 (by decide)
  exact ⟨h.2.2.2.1, h.2.1⟩

/-! ## Shared-pointer comparison helpers (core-api/SharedPtr.h) -/

/-- A `shared_ptr<T>` as seen by the comparison helpers: only its raw
pointer `.get()` matters (an address, with `0` modelling null). -/
structure SharedPtrM (α : Type) where
  rawGet : Nat
  deriving DecidableEq, Repr

/-- The helper `template<class T> bool operator==(const shared_ptr<T>& a, const T* b)`
(SharedPtr.h lines 75–79): returns `a.get() == b`. -/
def sharedPtrEqRaw {α : Type} (a : SharedPtrM α) (b : Nat) : Bool :=
  a.rawGet == b

/-- The helper `template<class T> bool operator!=(const shared_ptr<T>& a, const T* b)`
(SharedPtr.h lines 84–88): returns `a.get() != b`. -/
def sharedPtrNeRaw {α : Type} (a : SharedPtrM α) (b : Nat) : Bool :=
  a.rawGet != b

/-- C9: the shared-pointer comparison helpers agree with raw-pointer
equality and with each other: `a == b` holds exactly when `a.get()` equals
`b`, and `a != b` holds exactly when `a == b` does not. -/
theorem sharedPtr_raw_comparisons_consistent (α : Type)
    (a : SharedPtrM α) (b : Nat) :
    (sharedPtrEqRaw a b = true ↔ a.rawGet = b)
    ∧ (sharedPtrNeRaw a b = true ↔ ¬ sharedPtrEqRaw a b = true) := by
  constructor
  · simp [sharedPtrEqRaw]
  · simp [sharedPtrNeRaw, sharedPtrEqRaw]

/-! ## utf8_to_ucs4 (src/utility/UnicodeUtil.cpp) -/

/-- The loop of `boost::detail::utf8_byte_count` counting leading ones
(`mask = 0x80; while(c & mask) { ++result; mask >>= 1; }`), unrolled over
the eight bits of the byte. -/
def leadingOnes (c : Nat) : Nat :=
  if c &&& 0x80 = 0 then 0
  else if c &&& 0x40 = 0 then 1
  else if c &&& 0x20 = 0 then 2
  else if c &&& 0x10 = 0 then 3
  else if c &&& 0x8 = 0 then 4
  else if c &&& 0x4 = 0 then 5
  else if c &&& 0x2 = 0 then 6
  else if c &&& 0x1 = 0 then 7
  else 8

/-- Function `boost::detail::utf8_byte_count`: sequence length implied by a lead
byte — `(result == 0) ? 1 : ((result > 4) ? 4 : result)`. -/
def utf8_byte_count (c : Nat) : Nat :=
  let r := leadingOnes c
  if r = 0 then 1 else if r > 4 then 4 else r

/-- Function `boost::detail::utf8_trailing_byte_count`. -/
def utf8_trailing_byte_count (c : Nat) : Nat :=
  utf8_byte_count c - 1

/-- Method `u8_to_u32_iterator::extract_current` on the byte sequence starting at
the current position: reject a continuation byte (`(value & 0xC0) == 0x80`)
as the lead; accumulate 6 payload bits from each of the `extra` trailing
bytes (`value <<= 6; value += next & 0x3F`); mask with `masks[extra]`;
reject code points above `0x10FFFF`.  `none` models the
`invalid_sequence()` exception (also raised when the input ends inside a
sequence). -/
def extract_current (bytes : List Nat) : Option Nat :=
  match bytes with
  | [] => none
  | b :: rest =>
    if b &&& 0xC0 = 0x80 then none
    else
      let extra := utf8_trailing_byte_count b
      if extra ≤ rest.length then
        let v := (rest.take extra).foldl (fun acc x => acc * 64 + (x &&& 0x3F)) b
        let masks : List Nat := [0x7F, 0x7FF, 0xFFFF, 0x1FFFFF]
        let v2 := v &&& masks.getD extra 0
        if v2 > 0x10FFFF then none else some v2
      else none

/-- Function `utf8_to_ucs4(input, output)` from UnicodeUtil.cpp lines 59–65:
`std::copy(first, last, std::back_inserter(output))` over
`boost::u8_to_u32_iterator` — repeatedly decode the code point at the
current position, push it onto the back of `output`, and advance by
`utf8_byte_count` bytes, until the input is exhausted (`none` models a
decoding exception escaping mid-copy). -/
def utf8_to_ucs4 (input : List Nat) (output : List Nat) : Option (List Nat) :=
  match input with
  | [] => some output
  | b :: rest =>
    match extract_current (b :: rest) with
    | none => none
    | some v =>
      utf8_to_ucs4 (rest.drop (utf8_trailing_byte_count b)) (output ++ [v])
termination_by input.length
decreasing_by
  simp only [List.length_drop, List.length_cons]
  omega

/-- The pure decoding of a UTF-8 byte string: `utf8_to_ucs4` run on an empty
output. -/
def utf8Decode (input : List Nat) : Option (List Nat) :=
  utf8_to_ucs4 input []

theorem utf8_to_ucs4_append_bounded (n : Nat) :
    ∀ input output : List Nat, input.length ≤ n →
      utf8_to_ucs4 input output
        = (utf8_to_ucs4 input []).map (fun cs => output ++ cs) := by
  induction n with
  | zero =>
    intro input output h
    have hnil : input = [] := List.eq_nil_of_length_eq_zero (Nat.le_zero.mp h)
    subst hnil
    simp [utf8_to_ucs4]
  | succ n ih =>
    intro input output h
    match input with
    | [] => simp [utf8_to_ucs4]
    | b :: rest =>
      rw [utf8_to_ucs4, utf8_to_ucs4]
      cases hx : extract_current (b :: rest) with
      | none => simp
      | some v =>
        simp only
        have hlen : (rest.drop (utf8_trailing_byte_count b)).length ≤ n := by
          simp only [List.length_cons] at h
          simp only [List.length_drop]
          omega
        rw [ih (rest.drop (utf8_trailing_byte_count b)) (output ++ [v]) hlen,
            ih (rest.drop (utf8_trailing_byte_count b)) ([] ++ [v]) hlen]
        cases utf8_to_ucs4 (rest.drop (utf8_trailing_byte_count b)) [] with
        | none => rfl
        | some cs => simp

/-- C10: `utf8_to_ucs4` appends rather than replaces: for every input byte
string and every initial content of the output string, the result (when
decoding succeeds) is exactly the prior output followed by the decoded
UCS-4 code points; with an empty output it yields exactly the decoding of
the input; in particular the pre-existing content is never cleared. -/
theorem utf8_to_ucs4_appends_to_output (input output : List Nat) :
    utf8_to_ucs4 input output
      = (utf8Decode input).map (fun cs => output ++ cs)
    ∧ utf8_to_ucs4 input [] = utf8Decode input
    ∧ (∀ cs : List Nat, utf8Decode input = some cs →
        utf8_to_ucs4 input output = some (output ++ cs)) := by
  refine ⟨utf8_to_ucs4_append_bounded input.length input output (le_refl _),
          rfl, ?_⟩
  intro cs hcs
  rw [utf8_to_ucs4_append_bounded input.length input output (le_refl _),
      ← utf8Decode, hcs]
  rfl

theorem utf8Decode_example :
    utf8Decode [0x48, 0xC3, 0xA9] = some [0x48, 0xE9] := by
  simp +decide [utf8Decode, utf8_to_ucs4, extract_current,
                utf8_trailing_byte_count, utf8_byte_count, leadingOnes]

theorem utf8_to_ucs4_appends_to_output_witness :
    utf8Decode [0x48, 0xC3, 0xA9] = some [0x48, 0xE9]
    ∧ utf8_to_ucs4 [0x48, 0xC3, 0xA9] [0x64] = some ([0x64] ++ [0x48, 0xE9]) := by
  refine ⟨utf8Decode_example, ?_⟩
  exact (utf8_to_ucs4_appends_to_output [0x48, 0xC3, 0xA9] [0x64]).2.2
    [0x48, 0xE9] utf8Decode_example

end Zillians
